import Mathlib

/-!
Verification of the measured metrics library against its specification.

The development shallowly embeds the two visible source files:
`src/lib/Collection.js` (the `Collection` facade) and the registry /
middleware behaviour exercised by
`src/packages/measured-node-metrics/test/integration/test-express-middleware.js`.
Classes whose implementation files are not part of the sources
(`Metric.js` type tags, the individual metric classes,
`DimensionAwareMetricsRegistry`, `SelfReportingMetricsRegistry`, the
decaying `Histogram`, and the express middleware) are modelled from the
specification, each marked `Modelled from the spec:` in its doc comment.
-/

namespace Measured

/-- Modelled from the spec: the `METRIC_TYPES` tag set of
`src/lib/metrics/Metric.js` (file absent from the sources).  Spec section 3:
`type ∈ {counter, gauge, settable_gauge, histogram, meter, timer}`. -/
inductive MetricType where
  | counter
  | gauge
  | settableGauge
  | histogram
  | meter
  | timer
deriving DecidableEq, Repr

/-- Modelled from the spec: the string value of each `METRIC_TYPES` tag,
used verbatim inside error messages; the spec's section 3 names are used. -/
def MetricType.tag : MetricType → String
  | .counter => "counter"
  | .gauge => "gauge"
  | .settableGauge => "settable_gauge"
  | .histogram => "histogram"
  | .meter => "meter"
  | .timer => "timer"

/-- A JSON-serializable value, the result type of `toJSON`/`snapshot`. -/
inductive JValue where
  | num (q : ℚ)
  | obj (fields : List (String × JValue))

/-- Modelled from the spec: a metric instance (the concrete classes
`Counter.js`, `Gauge.js`, `SettableGauge.js`, `Histogram.js`, `Meter.js`,
`Timer.js` are absent from the sources).  Spec section 3: anything exposing
`update`, `toJSON/snapshot` and a type tag.  The payload field stands for
the constructor arguments and internal state of the instance, so distinct
instances are distinguishable values. -/
structure Metric where
  mtype : MetricType
  payload : JValue

/-- `metric.getType()` as used by `Collection._getMetricForNameAndType`. -/
def Metric.getType (m : Metric) : MetricType := m.mtype

/-- `metric.toJSON()` as used by `Collection.toJSON`. -/
def Metric.toJSON (m : Metric) : JValue := m.payload

/-- A JavaScript value passed as the `name` parameter: the source guards
against non-string and falsy arguments, so the embedding keeps the cases
that the truthiness / `typeof` checks distinguish. -/
inductive JSVal where
  | str (s : String)
  | num (n : Int)
  | boolean (b : Bool)
  | undef
  | nullv
deriving DecidableEq, Repr

/-- JavaScript truthiness of a `JSVal` (`!name` in the source). -/
def JSVal.falsy : JSVal → Bool
  | .str s => s = ""
  | .num n => n = 0
  | .boolean b => !b
  | .undef => true
  | .nullv => true

/-- `typeof name === 'string'`. -/
def JSVal.isString : JSVal → Bool
  | .str _ => true
  | _ => false

/-- The string contents of a `JSVal`; only reached after `_validateName`
has established the value is a (non-empty) string. -/
def JSVal.asString : JSVal → String
  | .str s => s
  | _ => ""

/-- `src/lib/Collection.js` constructor: a collection name (possibly
`undefined`, modelled as `none`) and the internal `_metrics` object,
modelled as an association list in insertion order (JavaScript objects
with string keys preserve insertion order). -/
structure Collection where
  name : Option String
  metrics : List (String × Metric)

/-- JavaScript `obj[name] = v`: replace the value in place when the key is
present (key order is preserved), otherwise append. -/
def upsert : List (String × Metric) → String → Metric → List (String × Metric)
  | [], n, m => [(n, m)]
  | (k, v) :: rest, n, m =>
    if k = n then (k, m) :: rest else (k, v) :: upsert rest n m

/-- `obj[name]` lookup on the `_metrics` object. -/
def lookupMetric : List (String × Metric) → String → Option Metric
  | [], _ => none
  | (k, v) :: rest, n => if k = n then some v else lookupMetric rest n

/-- `Collection.register(name, metric)` (src/lib/Collection.js lines 48-50):
`this._metrics[name] = metric;` — no validation, no type check. -/
def Collection.register (c : Collection) (name : String) (metric : Metric) : Collection :=
  { c with metrics := upsert c.metrics name metric }

/-- `Collection._validateName` (src/lib/Collection.js lines 223-227):
`if (!name || typeof name !== 'string') throw new Error(...)`. -/
def validateName (name : JSVal) : Except String Unit :=
  if name.falsy || !name.isString then
    .error "You must supply a metric name"
  else
    .ok ()

/-- `Collection._getMetricForNameAndType` (src/lib/Collection.js lines
204-216): when a metric is registered under `name`, throw if its type tag
differs from the requested tag, else return it; `Optional.empty()` when
the name is unregistered. -/
def getMetricForNameAndType (c : Collection) (name : String) (requestedType : MetricType) :
    Except String (Option Metric) :=
  match lookupMetric c.metrics name with
  | some metric =>
    let actualType := metric.getType
    if requestedType ≠ actualType then
      .error ("You requested a metric of type: " ++ requestedType.tag ++ " with name: "
        ++ name ++ ", but it exists in the registry as type: " ++ actualType.tag)
    else
      .ok (some metric)
  | none => .ok none

/-- The shared get-or-create body of the six convenience methods of
`Collection`: validate the name, consult `_getMetricForNameAndType` with
the method's requested type tag, return the registered metric when
present, else construct a metric with the method's constructed type and
register it.  `requested` and `constructed` are instantiated per method
exactly as the source does (they agree for five methods; `settableGauge`
passes `METRIC_TYPES.METER` as the requested tag, line 186). -/
def getOrCreate (c : Collection) (name : JSVal) (requested constructed : MetricType)
    (args : JValue) : Except String (Metric × Collection) :=
  match validateName name with
  | .error e => .error e
  | .ok _ =>
    match getMetricForNameAndType c name.asString requested with
    | .error e => .error e
    | .ok (some registeredMetric) => .ok (registeredMetric, c)
    | .ok none =>
      let m : Metric := ⟨constructed, args⟩
      .ok (m, c.register name.asString m)

/-- `Collection.gauge` (src/lib/Collection.js lines 82-94). -/
def Collection.gauge (c : Collection) (name : JSVal) (readFn : JValue) :
    Except String (Metric × Collection) :=
  getOrCreate c name .gauge .gauge readFn

/-- `Collection.counter` (src/lib/Collection.js lines 102-114). -/
def Collection.counter (c : Collection) (name : JSVal) (properties : JValue) :
    Except String (Metric × Collection) :=
  getOrCreate c name .counter .counter properties

/-- `Collection.histogram` (src/lib/Collection.js lines 122-134). -/
def Collection.histogram (c : Collection) (name : JSVal) (properties : JValue) :
    Except String (Metric × Collection) :=
  getOrCreate c name .histogram .histogram properties

/-- `Collection.timer` (src/lib/Collection.js lines 142-154). -/
def Collection.timer (c : Collection) (name : JSVal) (properties : JValue) :
    Except String (Metric × Collection) :=
  getOrCreate c name .timer .timer properties

/-- `Collection.meter` (src/lib/Collection.js lines 162-174). -/
def Collection.meter (c : Collection) (name : JSVal) (properties : JValue) :
    Except String (Metric × Collection) :=
  getOrCreate c name .meter .meter properties

/-- `Collection.settableGauge` (src/lib/Collection.js lines 182-194).
Line 186 passes `METRIC_TYPES.METER` (not `SETTABLE_GAUGE`) to
`_getMetricForNameAndType`, while the created metric is a
`SettableGauge`. -/
def Collection.settableGauge (c : Collection) (name : JSVal) (properties : JValue) :
    Except String (Metric × Collection) :=
  getOrCreate c name .meter .settableGauge properties

/-- JavaScript `json[key] = v` while building the export object in
`Collection.toJSON`: replace in place if present, else append. -/
def jsonInsert : List (String × JValue) → String → JValue → List (String × JValue)
  | [], k, v => [(k, v)]
  | (k0, v0) :: rest, k, v =>
    if k0 = k then (k0, v) :: rest else (k0, v0) :: jsonInsert rest k v

/-- `Collection.toJSON` (src/lib/Collection.js lines 56-74): build the flat
object by iterating the `_metrics` keys in insertion order, then return it
bare when the collection name is falsy, else wrapped under the name. -/
def Collection.toJSON (c : Collection) : JValue :=
  let json := c.metrics.foldl (fun acc p => jsonInsert acc p.1 p.2.toJSON) []
  match c.name with
  | none => .obj json
  | some n => if n = "" then .obj json else .obj [(n, .obj json)]

/-! ### DimensionAwareMetricsRegistry

The implementation file is not in the sources (only its unit test is), so
the registry is modelled from the specification, sections 3 and 4.3. -/

/-- Ordering of dimension entries by key (lexicographic on the key's
character data), used to canonicalize a dimension map before building the
storage key. -/
def dimLe (p q : String × String) : Prop := p.1.data ≤ q.1.data

instance : DecidableRel dimLe := fun p q =>
  inferInstanceAs (Decidable (p.1.data ≤ q.1.data))

instance : IsTotal (String × String) dimLe :=
  ⟨fun p q => le_total p.1.data q.1.data⟩

instance : IsTrans (String × String) dimLe :=
  ⟨fun _ _ _ h1 h2 => le_trans h1 h2⟩

/-- Strict key ordering; antisymmetric (vacuously), which is what makes the
sorted dimension list a canonical form for dimension maps with distinct
keys. -/
def dimLt (p q : String × String) : Prop := p.1.data < q.1.data

instance : IsAntisymm (String × String) dimLt :=
  ⟨fun _ _ h1 h2 => absurd (lt_trans h1 h2) (lt_irrefl _)⟩

/-- Modelled from the spec:
`DimensionAwareMetricsRegistry._generateStorageKey` (implementation absent
from the sources).  Spec section 4.3: canonicalize dimensions by sorting
entries by key, then concatenate the name with the dimension values joined
by the fixed separator, matching the spec's section 8 example key (name
`requests`, then the dimension values in the key-sorted order) up to its
canonical ordering, which is the exact key the unit test in the sources
asserts. -/
def generateStorageKey (name : String) (dimensions : List (String × String)) : String :=
  (List.insertionSort dimLe dimensions).foldl (fun key p => key ++ "-" ++ p.2) name

/-- Modelled from the spec: `MetricWrapper`, spec section 3 —
`{name, dimensions, metricImpl}`. -/
structure MetricWrapper (α : Type) where
  name : String
  dimensions : List (String × String)
  metricImpl : α

/-- Association-list lookup for the registry's internal key map. -/
def lookupKey {β : Type} : List (String × β) → String → Option β
  | [], _ => none
  | (k, v) :: rest, key => if k = key then some v else lookupKey rest key

/-- Insert-or-replace for the registry's internal key map. -/
def upsertKey {β : Type} : List (String × β) → String → β → List (String × β)
  | [], key, w => [(key, w)]
  | (k, v) :: rest, key, w =>
    if k = key then (k, w) :: rest else (k, v) :: upsertKey rest key w

/-- Modelled from the spec: `DimensionAwareMetricsRegistry`, spec sections
3 and 4.3 — a `mapping<storageKey, MetricWrapper>`. -/
structure DimensionAwareMetricsRegistry (α : Type) where
  metrics : List (String × MetricWrapper α)

/-- A freshly constructed, empty registry. -/
def emptyRegistry {α : Type} : DimensionAwareMetricsRegistry α := ⟨[]⟩

/-- Modelled from the spec: `putMetric(name, metric, dimensions) →
storageKey`, spec section 4.3. -/
def DimensionAwareMetricsRegistry.putMetric {α : Type} (r : DimensionAwareMetricsRegistry α)
    (name : String) (metric : α) (dimensions : List (String × String)) :
    String × DimensionAwareMetricsRegistry α :=
  let key := generateStorageKey name dimensions
  (key, ⟨upsertKey r.metrics key ⟨name, dimensions, metric⟩⟩)

/-- Modelled from the spec: `hasMetric(name, dimensions) → bool`, spec
section 4.3. -/
def DimensionAwareMetricsRegistry.hasMetric {α : Type} (r : DimensionAwareMetricsRegistry α)
    (name : String) (dimensions : List (String × String)) : Bool :=
  (lookupKey r.metrics (generateStorageKey name dimensions)).isSome

/-- Modelled from the spec: `getMetric(name, dimensions) → Metric |
not-found`, spec section 4.3; the not-found signal is `none`, never a
thrown error. -/
def DimensionAwareMetricsRegistry.getMetric {α : Type} (r : DimensionAwareMetricsRegistry α)
    (name : String) (dimensions : List (String × String)) : Option α :=
  (lookupKey r.metrics (generateStorageKey name dimensions)).map
    (fun w => w.metricImpl)

/-- Modelled from the spec: `getMetricWrapperByKey(storageKey)`, spec
section 4.3. -/
def DimensionAwareMetricsRegistry.getMetricWrapperByKey {α : Type}
    (r : DimensionAwareMetricsRegistry α) (key : String) : Option (MetricWrapper α) :=
  lookupKey r.metrics key

/-- Modelled from the spec: `allKeys() → sequence of storageKey`, spec
section 4.3. -/
def DimensionAwareMetricsRegistry.allKeys {α : Type}
    (r : DimensionAwareMetricsRegistry α) : List String :=
  r.metrics.map Prod.fst

/-- One `putMetric` invocation, for reasoning about registries built by a
sequence of puts. -/
structure PutOp (α : Type) where
  name : String
  dimensions : List (String × String)
  metric : α

/-- Apply a sequence of `putMetric` operations to a registry. -/
def applyPuts {α : Type} (r : DimensionAwareMetricsRegistry α) (ops : List (PutOp α)) :
    DimensionAwareMetricsRegistry α :=
  ops.foldl (fun r op => (r.putMetric op.name op.metric op.dimensions).2) r

/-! ### Express middleware request counting

Modelled from the spec, sections 1, 6 and 8: the middleware is a pure
producer that, when a request completes, performs get-or-create under the
name `requests` with dimensions `{method, uri, statusCode}` — where `uri`
is the logical route template, not the raw path — and updates the metric.
The metric is abstracted to its snapshot count. -/

/-- Modelled from the spec: one request-metric update — get-or-create the
`requests` metric for the request's dimensions and increment its count
(spec section 8 example). -/
def recordRequest (r : DimensionAwareMetricsRegistry Nat)
    (method uri statusCode : String) : DimensionAwareMetricsRegistry Nat :=
  let dims := [("method", method), ("uri", uri), ("statusCode", statusCode)]
  match r.getMetric "requests" dims with
  | some count => (r.putMetric "requests" (count + 1) dims).2
  | none => (r.putMetric "requests" 1 dims).2

/-- The registry after one `GET /hello` request answered 200. -/
def helloRegistry : DimensionAwareMetricsRegistry Nat :=
  recordRequest emptyRegistry "GET" "/hello" "200"

/-- The registry after three `GET` requests for distinct user ids that the
router maps to the one logical route `/users/:userId`. -/
def usersRegistry : DimensionAwareMetricsRegistry Nat :=
  recordRequest
    (recordRequest
      (recordRequest emptyRegistry "GET" "/users/:userId" "200")
      "GET" "/users/:userId" "200")
    "GET" "/users/:userId" "200"

/-! ### SelfReportingMetricsRegistry lifecycle

Modelled from the spec, section 4.4: the self-reporting registry owns a
recurring schedule; each elapsed tick snapshots the registry and invokes
the Reporter's deliver contract; `shutdown()` stops the schedule.  The
embedding is a state machine over discrete schedule events. -/

/-- Modelled from the spec: the observable lifecycle state of a
`SelfReportingMetricsRegistry` — whether the schedule is running and how
many times the Reporter's deliver contract has been invoked. -/
structure SelfReportingState where
  scheduleActive : Bool
  reporterInvocations : Nat

/-- A freshly constructed self-reporting registry: no schedule, no
deliveries. -/
def initialReportingState : SelfReportingState := ⟨false, 0⟩

/-- Modelled from the spec: `start()` begins the recurring report cycle. -/
def SelfReportingState.start (s : SelfReportingState) : SelfReportingState :=
  { s with scheduleActive := true }

/-- Modelled from the spec: one elapsed report tick — when the schedule is
active it snapshots the registry and invokes the Reporter once; after
shutdown no report starts. -/
def SelfReportingState.tick (s : SelfReportingState) : SelfReportingState :=
  if s.scheduleActive then
    { s with reporterInvocations := s.reporterInvocations + 1 }
  else s

/-- Modelled from the spec: `shutdown()` stops the schedule (synchronously;
no report starts after it returns). -/
def SelfReportingState.shutdown (s : SelfReportingState) : SelfReportingState :=
  { s with scheduleActive := false }

/-- Run a sequence of elapsed ticks. -/
def runTicks (s : SelfReportingState) : Nat → SelfReportingState
  | 0 => s
  | n + 1 => runTicks s.tick n

/-! ### Decaying Histogram

Modelled from the spec, sections 3 and 4.1 (the `Histogram.js`
implementation is absent from the sources): a fixed-capacity reservoir of
`(priority, value)` pairs.  When full, a new observation is admitted in
place of the current minimum-priority element only if its priority exceeds
that minimum.  Priorities are decay-weighted random keys; the embedding
takes them as explicit rational arguments, since the statistical claims
here hold for every priority assignment. -/

/-- The minimum priority among retained `(priority, value)` pairs. -/
def minPrio : List (ℚ × ℚ) → ℚ
  | [] => 0
  | [p] => p.1
  | p :: q :: rest => min p.1 (minPrio (q :: rest))

/-- Remove the first element whose priority equals `prio`. -/
def removeByPrio : List (ℚ × ℚ) → ℚ → List (ℚ × ℚ)
  | [], _ => []
  | p :: rest, prio => if p.1 = prio then rest else p :: removeByPrio rest prio

/-- Modelled from the spec: the decaying histogram — reservoir capacity,
total observation count (`count` reports total observations ever made,
spec section 4.1), and the retained `(priority, value)` sample. -/
structure Histogram where
  capacity : Nat
  countTotal : Nat
  sample : List (ℚ × ℚ)

/-- A freshly constructed histogram with the given reservoir capacity. -/
def Histogram.make (capacity : Nat) : Histogram := ⟨capacity, 0, []⟩

/-- Modelled from the spec: `update(value)` with the observation's assigned
priority — admit unconditionally while the reservoir is below capacity;
when full, admit in place of the minimum-priority element only if the new
priority exceeds that minimum (spec section 3, reservoir invariant). -/
def Histogram.update (h : Histogram) (priority value : ℚ) : Histogram :=
  if h.sample.length < h.capacity then
    { h with countTotal := h.countTotal + 1, sample := (priority, value) :: h.sample }
  else if minPrio h.sample < priority then
    { h with countTotal := h.countTotal + 1,
             sample := (priority, value) :: removeByPrio h.sample (minPrio h.sample) }
  else
    { h with countTotal := h.countTotal + 1 }

/-- Feed the histogram one observation of `value` per priority in `ps`. -/
def Histogram.feed (h : Histogram) (ps : List ℚ) (value : ℚ) : Histogram :=
  ps.foldl (fun h p => h.update p value) h

/-- The retained sample's values. -/
def Histogram.values (h : Histogram) : List ℚ := h.sample.map Prod.snd

/-- Minimum of a list of rationals (`0` as the defined no-data value). -/
def listMin : List ℚ → ℚ
  | [] => 0
  | [x] => x
  | x :: y :: rest => min x (listMin (y :: rest))

/-- Maximum of a list of rationals (`0` as the defined no-data value). -/
def listMax : List ℚ → ℚ
  | [] => 0
  | [x] => x
  | x :: y :: rest => max x (listMax (y :: rest))

/-- Mean of a list of rationals (`0` as the defined no-data value). -/
def listMean (l : List ℚ) : ℚ :=
  if l.length = 0 then 0 else l.sum / l.length

/-- Population variance of a list of rationals (`0` as the defined no-data
value); the snapshot's standard deviation is its nonnegative square
root. -/
def listVariance (l : List ℚ) : ℚ :=
  if l.length = 0 then 0
  else ((l.map (fun x => (x - listMean l) ^ 2)).sum) / l.length

/-- Modelled from the spec: the rank-interpolation step of the percentile
query on the already-sorted sample — the rank is `q * (n + 1)`; below the
first order statistic return the minimum, at or beyond the last return the
maximum, else linearly interpolate between the two adjacent order
statistics. -/
def percentileSorted (sorted : List ℚ) (q : ℚ) : ℚ :=
  if sorted.length = 0 then 0
  else if q * (sorted.length + 1) < 1 then sorted.getD 0 0
  else if (sorted.length : ℚ) ≤ q * (sorted.length + 1) then
    sorted.getD (sorted.length - 1) 0
  else
    sorted.getD ((⌊q * (sorted.length + 1)⌋).toNat - 1) 0
      + (q * (sorted.length + 1) - ⌊q * (sorted.length + 1)⌋)
        * (sorted.getD (⌊q * (sorted.length + 1)⌋).toNat 0
            - sorted.getD ((⌊q * (sorted.length + 1)⌋).toNat - 1) 0)

/-- Modelled from the spec: the percentile query, spec section 4.1 — sort
the retained sample's values and linearly interpolate between order
statistics at the requested rank (`0` as the defined no-data value for an
empty reservoir). -/
def percentile (values : List ℚ) (q : ℚ) : ℚ :=
  percentileSorted (List.insertionSort (fun a b : ℚ => a ≤ b) values) q

/-- `snapshot().min` over the retained sample. -/
def Histogram.minValue (h : Histogram) : ℚ := listMin h.values

/-- `snapshot().max` over the retained sample. -/
def Histogram.maxValue (h : Histogram) : ℚ := listMax h.values

/-- `snapshot().mean` over the retained sample. -/
def Histogram.meanValue (h : Histogram) : ℚ := listMean h.values

/-- The variance of the retained sample; `snapshot().stddev` is its
nonnegative square root. -/
def Histogram.varianceValue (h : Histogram) : ℚ := listVariance h.values

/-- `snapshot().percentiles(q)` over the retained sample. -/
def Histogram.percentileValue (h : Histogram) (q : ℚ) : ℚ := percentile h.values q

/-! ## Lemmas about the `_metrics` object -/

lemma lookupMetric_upsert_self (l : List (String × Metric)) (n : String) (m : Metric) :
    lookupMetric (upsert l n m) n = some m := by
  induction l with
  | nil => simp [upsert, lookupMetric]
  | cons p rest ih =>
    obtain ⟨k, v⟩ := p
    by_cases hk : k = n <;> simp [upsert, lookupMetric, hk, ih]

lemma lookupMetric_upsert_ne (l : List (String × Metric)) (n k : String) (m : Metric)
    (h : k ≠ n) : lookupMetric (upsert l n m) k = lookupMetric l k := by
  have hne : ¬ (n = k) := fun he => h he.symm
  induction l with
  | nil => simp [upsert, lookupMetric, hne]
  | cons p rest ih =>
    obtain ⟨k0, v0⟩ := p
    by_cases hk : k0 = n
    · subst hk
      simp [upsert, lookupMetric, hne]
    · simp [upsert, lookupMetric, hk, ih]

/-- C9: `Collection.register` performs no validation and silently replaces:
after `register(name, m1)` then `register(name, m2)` the metric stored
under `name` is `m2` (for every name, every pair of metrics, with no error
possible — `register` is a total operation), and every other name's entry
is untouched. -/
theorem register_silently_replaces (c : Collection) (n : String) (m1 m2 : Metric) :
    lookupMetric ((c.register n m1).register n m2).metrics n = some m2 ∧
    ∀ k, k ≠ n →
      lookupMetric ((c.register n m1).register n m2).metrics k = lookupMetric c.metrics k := by
  constructor
  · exact lookupMetric_upsert_self _ n m2
  · intro k hk
    simp [Collection.register, lookupMetric_upsert_ne _ _ _ _ hk]

/-! ## Name validation -/

lemma validateName_invalid (name : JSVal) (h : (name.falsy || !name.isString) = true) :
    validateName name = .error "You must supply a metric name" := by
  simp [validateName, h]

/-- C6: every get-or-create operation of the collection raises the
configuration error synchronously when the supplied name is not a
non-empty string (empty, missing/null, or of non-string type), before any
metric is created or registered — the error return carries no new
collection state. -/
theorem invalid_name_raises (c : Collection) (name : JSVal) (args : JValue)
    (h : (name.falsy || !name.isString) = true) :
    c.gauge name args = .error "You must supply a metric name" ∧
    c.counter name args = .error "You must supply a metric name" ∧
    c.histogram name args = .error "You must supply a metric name" ∧
    c.timer name args = .error "You must supply a metric name" ∧
    c.meter name args = .error "You must supply a metric name" ∧
    c.settableGauge name args = .error "You must supply a metric name" := by
  have hv := validateName_invalid name h
  refine ⟨?_, ?_, ?_, ?_, ?_, ?_⟩ <;>
    simp [Collection.gauge, Collection.counter, Collection.histogram, Collection.timer,
      Collection.meter, Collection.settableGauge, getOrCreate, hv]

/-- Witness for C6 at the concrete missing name (`undefined`) on the empty
collection. -/
theorem invalid_name_raises_witness :
    ((JSVal.undef.falsy || !JSVal.undef.isString) = true) ∧
    Collection.gauge ⟨none, []⟩ JSVal.undef (JValue.num 0)
      = .error "You must supply a metric name" :=
  ⟨by decide, (invalid_name_raises ⟨none, []⟩ JSVal.undef (JValue.num 0) (by decide)).1⟩

/-! ## The `settableGauge` requested-type slip -/

/-- C1: at the failing input — a `Meter` registered under `m`, then a
settable-gauge get-or-create for `m` — the code raises no error at all and
hands back the registered `Meter` instance (whose type differs from
settable gauge), because `Collection.settableGauge` passes the `Meter`
type tag to `_getMetricForNameAndType` (src/lib/Collection.js line 186);
the claim (and the method's own documentation) requires a configuration
error naming both types. -/
theorem settableGauge_after_meter_no_error :
    Collection.settableGauge ⟨none, [("m", ⟨MetricType.meter, JValue.num 0⟩)]⟩
        (JSVal.str "m") (JValue.num 1)
      = Except.ok (⟨MetricType.meter, JValue.num 0⟩,
          (⟨none, [("m", ⟨MetricType.meter, JValue.num 0⟩)]⟩ : Collection)) ∧
    MetricType.meter ≠ MetricType.settableGauge :=
  ⟨rfl, by decide⟩

/-- C2: at the failing input — `settableGauge('s')` called twice on a fresh
collection — the first call registers a settable gauge, and the second
call of the same kind with the same name raises the type-mismatch error
(requesting type `meter`, src/lib/Collection.js line 186) instead of
returning the instance created by the first call. -/
theorem settableGauge_second_call_raises :
    Collection.settableGauge (⟨none, []⟩ : Collection) (JSVal.str "s") (JValue.num 0)
      = Except.ok (⟨MetricType.settableGauge, JValue.num 0⟩,
          (⟨none, [("s", ⟨MetricType.settableGauge, JValue.num 0⟩)]⟩ : Collection)) ∧
    Collection.settableGauge ⟨none, [("s", ⟨MetricType.settableGauge, JValue.num 0⟩)]⟩
        (JSVal.str "s") (JValue.num 0)
      = Except.error ("You requested a metric of type: meter with name: s, "
          ++ "but it exists in the registry as type: settable_gauge") :=
  ⟨rfl, rfl⟩

/-! ## `Collection.toJSON` -/

lemma jsonInsert_fresh (acc : List (String × JValue)) (k : String) (v : JValue)
    (h : k ∉ acc.map Prod.fst) : jsonInsert acc k v = acc ++ [(k, v)] := by
  induction acc with
  | nil => rfl
  | cons p rest ih =>
    obtain ⟨k0, v0⟩ := p
    simp only [List.map_cons, List.mem_cons] at h
    push_neg at h
    have hne : ¬ (k0 = k) := fun he => h.1 he.symm
    simp [jsonInsert, hne, ih h.2]

lemma foldl_jsonInsert (l : List (String × Metric)) (acc : List (String × JValue))
    (hnd : (l.map Prod.fst).Nodup)
    (hdisj : ∀ k ∈ l.map Prod.fst, k ∉ acc.map Prod.fst) :
    l.foldl (fun acc p => jsonInsert acc p.1 p.2.toJSON) acc
      = acc ++ l.map (fun p => (p.1, p.2.toJSON)) := by
  induction l generalizing acc with
  | nil => simp
  | cons p rest ih =>
    obtain ⟨k, m⟩ := p
    simp only [List.map_cons, List.nodup_cons] at hnd
    have hkfresh : k ∉ acc.map Prod.fst := hdisj k (by simp)
    rw [List.foldl_cons]
    rw [jsonInsert_fresh acc k m.toJSON hkfresh]
    rw [ih (acc ++ [(k, m.toJSON)]) hnd.2 ?_]
    · simp
    · intro k' hk'
      simp only [List.map_append, List.mem_append, List.map_cons, List.map_nil,
        List.mem_singleton, not_or]
      refine ⟨hdisj k' (by simp [hk']), ?_⟩
      intro he
      exact hnd.1 (he ▸ hk')

/-- C10: `Collection.toJSON` produces one entry per registered metric,
mapping its name to that metric's `toJSON` value, returned flat when the
collection's name is absent or empty and nested under the single
collection-name key otherwise.  The hypothesis that registered names are
distinct is intrinsic to the JavaScript `_metrics` object, whose keys are
unique. -/
theorem collection_toJSON_shape (c : Collection)
    (hnd : (c.metrics.map Prod.fst).Nodup) :
    ((c.name = none ∨ c.name = some "") →
      c.toJSON = JValue.obj (c.metrics.map (fun p => (p.1, p.2.toJSON)))) ∧
    (∀ n : String, c.name = some n → n ≠ "" →
      c.toJSON
        = JValue.obj [(n, JValue.obj (c.metrics.map (fun p => (p.1, p.2.toJSON))))]) := by
  have hflat : c.metrics.foldl (fun acc p => jsonInsert acc p.1 p.2.toJSON) []
      = c.metrics.map (fun p => (p.1, p.2.toJSON)) := by
    simpa using foldl_jsonInsert c.metrics [] hnd (by simp)
  constructor
  · rintro (h | h) <;> simp [Collection.toJSON, h, hflat]
  · intro n hn hne
    simp [Collection.toJSON, hn, hne, hflat]

/-- Witness for C10 on a two-metric collection named `col`. -/
theorem collection_toJSON_shape_witness :
    ((((⟨some "col", [("a", ⟨MetricType.counter, JValue.num 1⟩),
        ("b", ⟨MetricType.gauge, JValue.num 2⟩)]⟩ : Collection)).metrics.map Prod.fst).Nodup) ∧
    Collection.toJSON ⟨some "col", [("a", ⟨MetricType.counter, JValue.num 1⟩),
        ("b", ⟨MetricType.gauge, JValue.num 2⟩)]⟩
      = JValue.obj [("col", JValue.obj [("a", JValue.num 1), ("b", JValue.num 2)])] := by
  refine ⟨by decide, ?_⟩
  have h := (collection_toJSON_shape ⟨some "col", [("a", ⟨MetricType.counter, JValue.num 1⟩),
      ("b", ⟨MetricType.gauge, JValue.num 2⟩)]⟩ (by decide)).2 "col" rfl (by decide)
  simpa [Metric.toJSON] using h

/-! ## Storage-key canonicalization -/

lemma sorted_dimLt_insertionSort (l : List (String × String))
    (hnd : (l.map Prod.fst).Nodup) :
    List.Sorted dimLt (List.insertionSort dimLe l) := by
  have hperm : (List.insertionSort dimLe l).Perm l := List.perm_insertionSort dimLe l
  have hle : List.Sorted dimLe (List.insertionSort dimLe l) :=
    List.sorted_insertionSort dimLe l
  have hnd2 : ((List.insertionSort dimLe l).map Prod.fst).Nodup :=
    ((hperm.map Prod.fst).nodup_iff).mpr hnd
  have hpairne : (List.insertionSort dimLe l).Pairwise (fun p q => p.1 ≠ q.1) :=
    List.pairwise_map.mp hnd2
  exact (hle.and hpairne).imp
    (fun h => lt_of_le_of_ne h.1 (fun hd => h.2 (String.ext hd)))

lemma insertionSort_canonical (l1 l2 : List (String × String)) (hperm : l1.Perm l2)
    (hnd : (l1.map Prod.fst).Nodup) :
    List.insertionSort dimLe l1 = List.insertionSort dimLe l2 := by
  have hnd2 : (l2.map Prod.fst).Nodup := ((hperm.map Prod.fst).nodup_iff).mp hnd
  exact List.eq_of_perm_of_sorted
    ((List.perm_insertionSort dimLe l1).trans
      (hperm.trans (List.perm_insertionSort dimLe l2).symm))
    (sorted_dimLt_insertionSort l1 hnd)
    (sorted_dimLt_insertionSort l2 hnd2)

/-- C3: the registry's storage key is invariant under permutation of the
dimension map (same key/value pairs in any order give the identical key
string), and key generation is a deterministic function of
`(name, dimensions)` — calling it twice with the same inputs, including an
empty dimension map, yields the same key. -/
theorem generateStorageKey_order_independent (name : String)
    (l1 l2 : List (String × String)) (hperm : l1.Perm l2)
    (hnd : (l1.map Prod.fst).Nodup) :
    generateStorageKey name l1 = generateStorageKey name l2 ∧
    generateStorageKey name l1 = generateStorageKey name l1 ∧
    generateStorageKey name [] = generateStorageKey name [] := by
  refine ⟨?_, rfl, rfl⟩
  unfold generateStorageKey
  rw [insertionSort_canonical l1 l2 hperm hnd]

/-- Witness for C3 at the unit test's inputs: the two-entry dimension map
in its two insertion orders. -/
theorem generateStorageKey_order_independent_witness :
    (([("foo", "bar"), ("bam", "boo")] : List (String × String)).Perm
        [("bam", "boo"), ("foo", "bar")]) ∧
    (([("foo", "bar"), ("bam", "boo")].map (Prod.fst (α := String) (β := String))).Nodup) ∧
    generateStorageKey "the-metric-name" [("foo", "bar"), ("bam", "boo")]
      = generateStorageKey "the-metric-name" [("bam", "boo"), ("foo", "bar")] :=
  ⟨by decide, by decide,
    (generateStorageKey_order_independent "the-metric-name"
      [("foo", "bar"), ("bam", "boo")] [("bam", "boo"), ("foo", "bar")]
      (by decide) (by decide)).1⟩

/-! ## Registry lookup contract -/

lemma lookupKey_upsertKey_self {β : Type} (l : List (String × β)) (k : String) (w : β) :
    lookupKey (upsertKey l k w) k = some w := by
  induction l with
  | nil => simp [upsertKey, lookupKey]
  | cons p rest ih =>
    obtain ⟨k0, v0⟩ := p
    by_cases hk : k0 = k <;> simp [upsertKey, lookupKey, hk, ih]

lemma lookupKey_upsertKey_ne {β : Type} (l : List (String × β)) (k key : String) (w : β)
    (h : k ≠ key) : lookupKey (upsertKey l k w) key = lookupKey l key := by
  induction l with
  | nil => simp [upsertKey, lookupKey, h]
  | cons p rest ih =>
    obtain ⟨k0, v0⟩ := p
    by_cases hk : k0 = k
    · subst hk
      simp [upsertKey, lookupKey, h]
    · simp [upsertKey, lookupKey, hk, ih]

lemma lookupKey_applyPuts_fresh {α : Type} (ops : List (PutOp α))
    (r : DimensionAwareMetricsRegistry α) (key : String)
    (h : ∀ op ∈ ops, generateStorageKey op.name op.dimensions ≠ key) :
    lookupKey (applyPuts r ops).metrics key = lookupKey r.metrics key := by
  induction ops generalizing r with
  | nil => rfl
  | cons op rest ih =>
    have h1 : generateStorageKey op.name op.dimensions ≠ key := h op (by simp)
    have hrest : ∀ o ∈ rest, generateStorageKey o.name o.dimensions ≠ key :=
      fun o ho => h o (by simp [ho])
    show lookupKey (applyPuts ((r.putMetric op.name op.metric op.dimensions).2) rest).metrics key
      = lookupKey r.metrics key
    rw [ih _ hrest]
    exact lookupKey_upsertKey_ne r.metrics _ key _ h1

/-- C4: on a registry built by any sequence of `putMetric` operations, none
of which targets the storage key of `(name, dims)`: `hasMetric(name, dims)`
is `false` and `getMetric(name, dims)` returns the explicit not-found
signal (`none`) without throwing; immediately after
`putMetric(name, metric, dims)`, `hasMetric` is `true` and `getMetric`
returns the very metric instance that was put. -/
theorem registry_put_get_contract {α : Type} (name : String)
    (dims : List (String × String)) (metric : α) (ops : List (PutOp α))
    (hfresh : ops.all
      (fun op => generateStorageKey op.name op.dimensions
        != generateStorageKey name dims) = true) :
    (applyPuts emptyRegistry ops).hasMetric name dims = false ∧
    (applyPuts emptyRegistry ops).getMetric name dims = none ∧
    ((applyPuts emptyRegistry ops).putMetric name metric dims).2.hasMetric name dims = true ∧
    ((applyPuts emptyRegistry ops).putMetric name metric dims).2.getMetric name dims
      = some metric := by
  have hfresh2 : ∀ op ∈ ops,
      generateStorageKey op.name op.dimensions ≠ generateStorageKey name dims := by
    intro op hop
    exact bne_iff_ne.mp (List.all_eq_true.mp hfresh op hop)
  have hnone : lookupKey (applyPuts (emptyRegistry (α := α)) ops).metrics
      (generateStorageKey name dims) = none := by
    rw [lookupKey_applyPuts_fresh ops _ _ hfresh2]
    rfl
  refine ⟨?_, ?_, ?_, ?_⟩
  · simp [DimensionAwareMetricsRegistry.hasMetric, hnone]
  · simp [DimensionAwareMetricsRegistry.getMetric, hnone]
  · simp [DimensionAwareMetricsRegistry.hasMetric, DimensionAwareMetricsRegistry.putMetric,
      lookupKey_upsertKey_self]
  · simp [DimensionAwareMetricsRegistry.getMetric, DimensionAwareMetricsRegistry.putMetric,
      lookupKey_upsertKey_self]

/-- Witness for C4: one unrelated put, then the put/lookup round trip for
the unit test's `(counter, {foo: bar})` metric. -/
theorem registry_put_get_contract_witness :
    (([⟨"other", [], (⟨MetricType.counter, JValue.num 0⟩ : Metric)⟩] : List (PutOp Metric)).all
      (fun op => generateStorageKey op.name op.dimensions
        != generateStorageKey "counter" [("foo", "bar")]) = true) ∧
    (applyPuts emptyRegistry
        [⟨"other", [], (⟨MetricType.counter, JValue.num 0⟩ : Metric)⟩]).hasMetric
      "counter" [("foo", "bar")] = false ∧
    ((applyPuts emptyRegistry
        [⟨"other", [], (⟨MetricType.counter, JValue.num 0⟩ : Metric)⟩]).putMetric
        "counter" ⟨MetricType.counter, JValue.num 10⟩ [("foo", "bar")]).2.getMetric
      "counter" [("foo", "bar")] = some ⟨MetricType.counter, JValue.num 10⟩ := by
  have h := registry_put_get_contract "counter" [("foo", "bar")]
    (⟨MetricType.counter, JValue.num 10⟩ : Metric)
    [⟨"other", [], ⟨MetricType.counter, JValue.num 0⟩⟩] (by decide)
  exact ⟨by decide, h.1, h.2.2.2⟩

/-- C5: one `GET` request for `/hello` answered 200 stores exactly one
metric, its count is 1, under the storage key that joins the name
`requests` with the dimension values `GET`, `200`, `/hello` in the
canonical key-sorted order; and three requests for distinct user ids that
the router maps to the one logical route `/users/:userId` produce exactly
one registry entry. -/
theorem single_request_single_metric :
    helloRegistry.allKeys = ["requests-GET-200-/hello"] ∧
    helloRegistry.getMetric "requests"
      [("method", "GET"), ("uri", "/hello"), ("statusCode", "200")] = some 1 ∧
    usersRegistry.allKeys.length = 1 :=
  ⟨by decide, by decide, by decide⟩

/-! ## Self-reporting lifecycle -/

lemma runTicks_inactive (n : Nat) (s : SelfReportingState)
    (h : s.scheduleActive = false) : runTicks s n = s := by
  induction n with
  | zero => rfl
  | succ k ih =>
    show runTicks s.tick k = s
    have ht : s.tick = s := by
      simp [SelfReportingState.tick, h]
    rw [ht, ih]

/-- C7: `shutdown()` called immediately after `start()`, with zero report
ticks elapsed, returns with the Reporter's deliver contract never having
been invoked; and since the schedule is stopped, no number of subsequent
ticks ever invokes it either. -/
theorem shutdown_immediately_no_reporter :
    ((initialReportingState.start).shutdown).reporterInvocations = 0 ∧
    ∀ n : Nat,
      (runTicks ((initialReportingState.start).shutdown) n).reporterInvocations = 0 := by
  refine ⟨rfl, fun n => ?_⟩
  rw [runTicks_inactive n _ rfl]
  rfl

/-! ## Histogram fed a single constant value -/

lemma mem_removeByPrio {l : List (ℚ × ℚ)} {prio : ℚ} {x : ℚ × ℚ}
    (h : x ∈ removeByPrio l prio) : x ∈ l := by
  induction l with
  | nil => simp [removeByPrio] at h
  | cons p rest ih =>
    by_cases hp : p.1 = prio
    · rw [removeByPrio, if_pos hp] at h
      exact List.mem_cons_of_mem _ h
    · rw [removeByPrio, if_neg hp] at h
      rcases List.mem_cons.mp h with h | h
      · exact h ▸ List.mem_cons_self _ _
      · exact List.mem_cons_of_mem _ (ih h)

lemma update_values_const {h : Histogram} {v : ℚ} (p : ℚ)
    (hall : ∀ x ∈ h.sample, x.2 = v) :
    ∀ x ∈ (h.update p v).sample, x.2 = v := by
  intro x hx
  unfold Histogram.update at hx
  split_ifs at hx
  · rcases List.mem_cons.mp hx with hx | hx
    · rw [hx]
    · exact hall x hx
  · rcases List.mem_cons.mp hx with hx | hx
    · rw [hx]
    · exact hall x (mem_removeByPrio hx)
  · exact hall x hx

lemma update_sample_ne_nil {h : Histogram} (p v : ℚ) (hne : h.sample ≠ []) :
    (h.update p v).sample ≠ [] := by
  unfold Histogram.update
  split_ifs <;> simp_all

lemma feed_values_const {v : ℚ} : ∀ (ps : List ℚ) (h : Histogram),
    (∀ x ∈ h.sample, x.2 = v) → ∀ x ∈ (h.feed ps v).sample, x.2 = v := by
  intro ps
  induction ps with
  | nil =>
    intro h hall
    simpa [Histogram.feed] using hall
  | cons p rest ih =>
    intro h hall
    exact ih (h.update p v) (update_values_const p hall)

lemma feed_sample_ne_nil {v : ℚ} : ∀ (ps : List ℚ) (h : Histogram),
    h.sample ≠ [] → (h.feed ps v).sample ≠ [] := by
  intro ps
  induction ps with
  | nil =>
    intro h hne
    simpa [Histogram.feed] using hne
  | cons p rest ih =>
    intro h hne
    exact ih (h.update p v) (update_sample_ne_nil p v hne)

lemma feed_make_sample_ne_nil (cap : Nat) (hcap : 1 ≤ cap) (ps : List ℚ)
    (hps : ps ≠ []) (v : ℚ) : ((Histogram.make cap).feed ps v).sample ≠ [] := by
  cases ps with
  | nil => exact absurd rfl hps
  | cons p rest =>
    show (((Histogram.make cap).update p v).feed rest v).sample ≠ []
    have h1 : ((Histogram.make cap).update p v).sample = [(p, v)] := by
      have hpos : 0 < cap := hcap
      unfold Histogram.update Histogram.make
      simp [hpos]
    exact feed_sample_ne_nil rest _ (by simp [h1])

lemma listMin_const {v : ℚ} : ∀ (l : List ℚ), l ≠ [] → (∀ x ∈ l, x = v) →
    listMin l = v
  | [], hne, _ => absurd rfl hne
  | [x], _, hall => by simpa [listMin] using hall x (by simp)
  | x :: y :: rest, _, hall => by
    have h1 : x = v := hall x (by simp)
    have h2 : listMin (y :: rest) = v :=
      listMin_const (y :: rest) (by simp) (fun z hz => hall z (by simp [hz]))
    simp [listMin, h1, h2]

lemma listMax_const {v : ℚ} : ∀ (l : List ℚ), l ≠ [] → (∀ x ∈ l, x = v) →
    listMax l = v
  | [], hne, _ => absurd rfl hne
  | [x], _, hall => by simpa [listMax] using hall x (by simp)
  | x :: y :: rest, _, hall => by
    have h1 : x = v := hall x (by simp)
    have h2 : listMax (y :: rest) = v :=
      listMax_const (y :: rest) (by simp) (fun z hz => hall z (by simp [hz]))
    simp [listMax, h1, h2]

lemma sum_const {v : ℚ} (l : List ℚ) (hall : ∀ x ∈ l, x = v) :
    l.sum = l.length * v := by
  induction l with
  | nil => simp
  | cons x rest ih =>
    have h1 : x = v := hall x (by simp)
    have h2 := ih (fun z hz => hall z (by simp [hz]))
    simp only [List.sum_cons, List.length_cons, h1, h2]
    push_cast
    ring

lemma listMean_const {v : ℚ} (l : List ℚ) (hne : l ≠ []) (hall : ∀ x ∈ l, x = v) :
    listMean l = v := by
  have hlen : l.length ≠ 0 := by simpa [List.length_eq_zero] using hne
  have hlenq : (l.length : ℚ) ≠ 0 := Nat.cast_ne_zero.mpr hlen
  rw [listMean, if_neg hlen, sum_const l hall]
  exact mul_div_cancel_left₀ v hlenq

lemma listVariance_const {v : ℚ} (l : List ℚ) (hall : ∀ x ∈ l, x = v) :
    listVariance l = 0 := by
  by_cases hlen : l.length = 0
  · simp [listVariance, hlen]
  · have hne : l ≠ [] := by simpa [← List.length_eq_zero] using hlen
    have hzero : (l.map (fun x => (x - listMean l) ^ 2)).sum = 0 := by
      apply List.sum_eq_zero
      intro y hy
      obtain ⟨x, hx, rfl⟩ := List.mem_map.mp hy
      rw [hall x hx, listMean_const l hne hall]
      ring
    rw [listVariance, if_neg hlen, hzero, zero_div]

lemma getD_const {v : ℚ} : ∀ (l : List ℚ), (∀ x ∈ l, x = v) →
    ∀ i : Nat, i < l.length → l.getD i 0 = v
  | [], _, i, hi => absurd hi (by simp)
  | x :: rest, hall, 0, _ => by simpa [List.getD] using hall x (by simp)
  | x :: rest, hall, i + 1, hi => by
    have h := getD_const rest (fun z hz => hall z (by simp [hz])) i (by simpa using hi)
    simpa [List.getD] using h

lemma percentileSorted_const (sorted : List ℚ) (v q : ℚ)
    (hlen : sorted.length ≠ 0) (hall : ∀ x ∈ sorted, x = v) :
    percentileSorted sorted q = v := by
  unfold percentileSorted
  split_ifs with h1 h2 h3
  · exact absurd h1 hlen
  · exact getD_const sorted hall 0 (Nat.pos_of_ne_zero hlen)
  · exact getD_const sorted hall (sorted.length - 1)
      (Nat.sub_lt (Nat.pos_of_ne_zero hlen) Nat.one_pos)
  · have hge1 : (1 : ℚ) ≤ q * (sorted.length + 1) := not_lt.mp h2
    have hltn : q * (sorted.length + 1) < (sorted.length : ℚ) := not_le.mp h3
    have hfl : (1 : ℤ) ≤ ⌊q * ((sorted.length : ℚ) + 1)⌋ := by
      rw [Int.le_floor]
      exact_mod_cast hge1
    have hfu : ⌊q * ((sorted.length : ℚ) + 1)⌋ < (sorted.length : ℤ) := by
      rw [Int.floor_lt]
      exact_mod_cast hltn
    have hidx2 : (⌊q * ((sorted.length : ℚ) + 1)⌋).toNat < sorted.length := by omega
    have hidx1 : (⌊q * ((sorted.length : ℚ) + 1)⌋).toNat - 1 < sorted.length := by omega
    rw [getD_const sorted hall _ hidx1, getD_const sorted hall _ hidx2]
    ring

lemma percentile_const (values : List ℚ) (v q : ℚ) (hne : values ≠ [])
    (hall : ∀ x ∈ values, x = v) : percentile values q = v := by
  apply percentileSorted_const
  · rw [List.length_insertionSort]
    simpa [List.length_eq_zero] using hne
  · intro x hx
    exact hall x ((List.mem_insertionSort (fun a b : ℚ => a ≤ b)).mp hx)

/-- C8: a histogram fed only the value `v`, any positive number of times
(one observation per listed priority, for every priority assignment of the
decaying reservoir) and any positive capacity, snapshots `min = v`,
`max = v`, `mean = v`, variance `0` — hence standard deviation, its
nonnegative square root, is `0` — and every requested percentile equal to
`v`. -/
theorem histogram_constant_value_snapshot (v : ℚ) (cap : Nat) (ps : List ℚ)
    (hcap : 1 ≤ cap) (hps : ps ≠ []) :
    ((Histogram.make cap).feed ps v).minValue = v ∧
    ((Histogram.make cap).feed ps v).maxValue = v ∧
    ((Histogram.make cap).feed ps v).meanValue = v ∧
    ((Histogram.make cap).feed ps v).varianceValue = 0 ∧
    (∀ s : ℚ, 0 ≤ s → s * s = ((Histogram.make cap).feed ps v).varianceValue → s = 0) ∧
    (∀ q : ℚ, ((Histogram.make cap).feed ps v).percentileValue q = v) := by
  have hsne : ((Histogram.make cap).feed ps v).sample ≠ [] :=
    feed_make_sample_ne_nil cap hcap ps hps v
  have hvals : ∀ x ∈ ((Histogram.make cap).feed ps v).sample, x.2 = v :=
    feed_values_const ps (Histogram.make cap) (by simp [Histogram.make])
  have hvne : ((Histogram.make cap).feed ps v).values ≠ [] := by
    simpa [Histogram.values, List.map_eq_nil_iff] using hsne
  have hvall : ∀ x ∈ ((Histogram.make cap).feed ps v).values, x = v := by
    intro x hx
    obtain ⟨p, hp, rfl⟩ := List.mem_map.mp hx
    exact hvals p hp
  have hvar : ((Histogram.make cap).feed ps v).varianceValue = 0 :=
    listVariance_const _ hvall
  refine ⟨listMin_const _ hvne hvall, listMax_const _ hvne hvall,
    listMean_const _ hvne hvall, hvar, ?_, ?_⟩
  · intro s _ hsq
    rw [hvar] at hsq
    exact mul_self_eq_zero.mp hsq
  · intro q
    exact percentile_const _ v q hvne hvall

/-- Witness for C8: three observations of the value 5 into a capacity-4
reservoir at priorities 1, 2, 3. -/
theorem histogram_constant_value_snapshot_witness :
    (1 ≤ 4) ∧ (([1, 2, 3] : List ℚ) ≠ []) ∧
    ((Histogram.make 4).feed [1, 2, 3] 5).meanValue = 5 ∧
    ((Histogram.make 4).feed [1, 2, 3] 5).varianceValue = 0 ∧
    ((Histogram.make 4).feed [1, 2, 3] 5).percentileValue (1 / 2) = 5 := by
  have h := histogram_constant_value_snapshot 5 4 [1, 2, 3] (by decide) (by decide)
  exact ⟨by decide, by decide, h.2.2.1, h.2.2.2.1, h.2.2.2.2.2 (1 / 2)⟩

end Measured
